import Mathlib

/-!
A verification development for the Resonate audio SDK: a shallow embedding
of the server session engine (`src/server/server-session.ts`, the variant
with `ServerGroup` and `ClientEventWrapper`), the server-side client proxy
(`src/server/server-client.ts`, both historical variants), the PCM wire
codec (`sendPCMAudioChunk` and the receiver's `_handleAudioChunk`), and the
receiver's clock-offset exchange (`_handleServerTime`), together with
theorems settling the specification's claims about them.

Conventions: JavaScript numbers are modelled as `ℚ` (or `ℤ`/`ℕ` where the
code only ever holds integers), byte buffers as `List ℕ` with every entry
below 256, `Map` iteration as a `List` in insertion order, and thrown
errors as `Except String`.
-/

/-! ## Data model (`src/messages.ts`) -/

/-- `MediaCommand`: `"play" | "pause" | "stop" | "seek" | "volume"`. -/
inductive MediaCommand where
  | play | pause | stop | seek | volume
deriving DecidableEq, Repr

/-- `SessionInfo` from `src/messages.ts`.  `now` is a server timestamp
(microseconds), `codec_header` optional. -/
structure SessionInfo where
  session_id : String
  codec : String
  sample_rate : ℕ
  channels : ℕ
  bit_depth : ℕ
  now : ℤ
  codec_header : Option String
deriving DecidableEq, Repr

/-- `Metadata` from `src/messages.ts`: sticky display state.  The source's
`repeat` key is called `repeat_mode` here because `repeat` is reserved in
Lean; its values `"off" | "one" | "all"` stay strings. -/
structure Metadata where
  title : Option String
  artist : Option String
  album : Option String
  year : Option ℤ
  track : Option ℤ
  group_members : List String
  support_commands : List MediaCommand
  repeat_mode : String
  shuffle : Bool
deriving DecidableEq, Repr

/-- `Partial<Metadata>`: each field is present (`some v`, possibly carrying
a `null`) or absent (`none`), as after `payload[key] = metadata[key]`. -/
structure PartialMetadata where
  title : Option (Option String) := none
  artist : Option (Option String) := none
  album : Option (Option String) := none
  year : Option (Option ℤ) := none
  track : Option (Option ℤ) := none
  group_members : Option (List String) := none
  support_commands : Option (List MediaCommand) := none
  repeat_mode : Option String := none
  shuffle : Option Bool := none
deriving DecidableEq, Repr

/-- A full `Metadata` object used where the source passes the whole object
as a `metadata/update` payload (every key present). -/
def fullPayload (m : Metadata) : PartialMetadata where
  title := some m.title
  artist := some m.artist
  album := some m.album
  year := some m.year
  track := some m.track
  group_members := some m.group_members
  support_commands := some m.support_commands
  repeat_mode := some m.repeat_mode
  shuffle := some m.shuffle

/-- Modelled from the spec: `arraysEqual` is imported by the session engine
from `src/util/array-equal.ts`, a file absent from the provided sources;
the spec fixes its meaning as element-wise equality of the two lists (same
length, equal elements position by position, order included). -/
def arraysEqual {α : Type} [DecidableEq α] : List α → List α → Bool
  | [], [] => true
  | x :: xs, y :: ys => x == y && arraysEqual xs ys
  | _, _ => false

/-! ## `ServerSession.sendMetadata` (`src/server/server-session.ts`,
`part_005` lines 69–108)

The delta loop `for (const key in metadata)` visits every `Metadata` key;
keys in `METADATA_ARRAY_FIELDS = ["group_members", "support_commands"]`
are compared with `arraysEqual`, the rest with `!==`. -/

/-- The `payload` object built by `sendMetadata`'s field-by-field loop when
`_lastReportedMetadata` is non-null. -/
def computeDelta (last m : Metadata) : PartialMetadata where
  title := if last.title ≠ m.title then some m.title else none
  artist := if last.artist ≠ m.artist then some m.artist else none
  album := if last.album ≠ m.album then some m.album else none
  year := if last.year ≠ m.year then some m.year else none
  track := if last.track ≠ m.track then some m.track else none
  group_members :=
    if ¬ arraysEqual last.group_members m.group_members then some m.group_members else none
  support_commands :=
    if ¬ arraysEqual last.support_commands m.support_commands then
      some m.support_commands else none
  repeat_mode := if last.repeat_mode ≠ m.repeat_mode then some m.repeat_mode else none
  shuffle := if last.shuffle ≠ m.shuffle then some m.shuffle else none

/-- `Object.keys(payload).length === 0`. -/
def PartialMetadata.isEmpty (p : PartialMetadata) : Bool :=
  p.title.isNone && p.artist.isNone && p.album.isNone && p.year.isNone &&
  p.track.isNone && p.group_members.isNone && p.support_commands.isNone &&
  p.repeat_mode.isNone && p.shuffle.isNone

/-- The spread merge `{ ...last, ...payload }`: a key present in `payload`
wins, otherwise `last`'s value is kept. -/
def applyDelta (last : Metadata) (p : PartialMetadata) : Metadata where
  title := p.title.getD last.title
  artist := p.artist.getD last.artist
  album := p.album.getD last.album
  year := p.year.getD last.year
  track := p.track.getD last.track
  group_members := p.group_members.getD last.group_members
  support_commands := p.support_commands.getD last.support_commands
  repeat_mode := p.repeat_mode.getD last.repeat_mode
  shuffle := p.shuffle.getD last.shuffle

/-- `ServerSession.sendMetadata`, as a function of the metadata cache
`_lastReportedMetadata`: returns the `metadata/update` payload handed to
`sendMessage` (if any) and the new cache. -/
def sendMetadata (lastReported : Option Metadata) (metadata : Metadata) :
    Option PartialMetadata × Option Metadata :=
  match lastReported with
  | none => (some (fullPayload metadata), some metadata)
  | some last =>
    let payload := computeDelta last metadata
    if payload.isEmpty then (none, some last)
    else (some payload, some (applyDelta last payload))

/-! ## `ServerClient.isReady` (the two variants in the sources) -/

/-- `PlayerInfo` from `src/messages.ts`. -/
structure PlayerInfo where
  player_id : String
  name : String
  role : String
  buffer_capacity : ℕ
  support_codecs : List String
  support_channels : List ℕ
  support_sample_rates : List ℕ
  support_bit_depth : List ℕ
  support_streams : List String
  support_picture_formats : List String
  media_display_size : Option String
deriving DecidableEq, Repr

/-- `isReady()` of the `ServerClient` variant in `part_006` (the one with
`accept()` awaiting the first `player/hello`):
`return this.socket.readyState === WebSocket.OPEN;`. -/
def isReady_v006 (socketOpen : Bool) (_playerInfo : Option PlayerInfo) : Bool :=
  socketOpen

/-- `isReady()` of the `ServerClient` variant in `part_007`:
`return this.socket.readyState === WebSocket.OPEN && this.playerInfo !== null;`. -/
def isReady_v007 (socketOpen : Bool) (playerInfo : Option PlayerInfo) : Bool :=
  socketOpen && playerInfo.isSome

/-! ## The session engine (`part_005`): fan-out, activation, teardown

`ServerSession` owns `sessionActive : Map<string, ClientEventWrapper>`, the
caches `_lastReportedMetadata` and `_lastReportedArt`, and reaches clients
through `this.group.clients` (a `Map`, iterated in insertion order).  A
`ClientEventWrapper`'s constructor subscribes to the client's
`stream-command` and `player-state` events; `tearDown()` unsubscribes
them.  We track the map's keys (`sessionActive`), the set of clients whose
wrapper listeners are currently subscribed (`liveBindings`), and the two
caches; the engine's outputs are a list of `SessionAction`s. -/

/-- A client as seen through the group's `clients` map: its id and the
current value of `isReady()`. -/
structure GClient where
  clientId : String
  ready : Bool
deriving DecidableEq, Repr

/-- The text messages (`ServerMessages`) the session engine sends. -/
inductive ServerMsg where
  | sessionStart (payload : SessionInfo)
  | sessionEnd (sessionId : String)
  | metadataUpdate (payload : PartialMetadata)
deriving DecidableEq, Repr

/-- An observable action of the session engine: a `client.send`, a
`client.sendBinary`, or `fire("session-end")` on the session's emitter. -/
inductive SessionAction where
  | sendText (clientId : String) (msg : ServerMsg)
  | sendBinaryTo (clientId : String) (data : List ℕ)
  | fireSessionEnd
deriving DecidableEq, Repr

/-- The client a `SessionAction` is addressed to (`fireSessionEnd` has
none). -/
def actionClientId : SessionAction → Option String
  | .sendText id _ => some id
  | .sendBinaryTo id _ => some id
  | .fireSessionEnd => none

/-- The sub-trace of actions addressed to one client. -/
def actionsTo (id : String) (evs : List SessionAction) : List SessionAction :=
  evs.filter fun e => actionClientId e == some id

/-- The session-engine state: the keys of the `sessionActive` map (in
insertion order), the clients whose `ClientEventWrapper` listeners are
subscribed, and the two sticky caches. -/
structure SessionState where
  sessionActive : List String
  liveBindings : List String
  lastMeta : Option Metadata
  lastArt : Option (List ℕ)
deriving DecidableEq, Repr

/-- `this.sessionActive.set(clientId, new ClientEventWrapper(this, client))`:
the map gains the key and the freshly constructed wrapper subscribes the
client's `stream-command` and `player-state` listeners. -/
def activate (st : SessionState) (id : String) : SessionState :=
  { st with sessionActive := st.sessionActive ++ [id],
            liveBindings := st.liveBindings ++ [id] }

/-- `this.sessionActive.get(clientId)!.tearDown(); this.sessionActive.delete(clientId)`:
the wrapper's listeners are unsubscribed and the map entry removed. -/
def dropActive (st : SessionState) (id : String) : SessionState :=
  { st with sessionActive := st.sessionActive.erase id,
            liveBindings := st.liveBindings.erase id }

/-- The fused `_readyClients()` generator (`part_005` lines 141–174) and
its consumer (`sendMessage` / `sendBinary`): walk the group's clients in
order; skip a not-ready client, tearing down and dropping its active entry
if it had one; deliver directly to an already-active ready client; for a
ready client not yet active, send `session/start`, then the cached
metadata if non-null, then the cached art if non-null, then create the
event wrapper and mark it active, and deliver.  `deliver id` is the action
the consuming loop performs on each yielded client. -/
def fanOut (info : SessionInfo) (deliver : String → SessionAction) :
    List GClient → SessionState → List SessionAction × SessionState
  | [], st => ([], st)
  | c :: rest, st =>
    if c.ready = false then
      fanOut info deliver rest
        (if c.clientId ∈ st.sessionActive then dropActive st c.clientId else st)
    else if c.clientId ∈ st.sessionActive then
      (deliver c.clientId :: (fanOut info deliver rest st).1,
       (fanOut info deliver rest st).2)
    else
      let catchup :=
        SessionAction.sendText c.clientId (ServerMsg.sessionStart info) ::
          ((match st.lastMeta with
            | some m =>
              [SessionAction.sendText c.clientId
                (ServerMsg.metadataUpdate (fullPayload m))]
            | none => []) ++
           (match st.lastArt with
            | some a => [SessionAction.sendBinaryTo c.clientId a]
            | none => []))
      (catchup ++ deliver c.clientId ::
          (fanOut info deliver rest (activate st c.clientId)).1,
       (fanOut info deliver rest (activate st c.clientId)).2)

/-- `ServerSession.sendMessage(message)`. -/
def sendMessage (info : SessionInfo) (group : List GClient) (st : SessionState)
    (msg : ServerMsg) : List SessionAction × SessionState :=
  fanOut info (fun id => SessionAction.sendText id msg) group st

/-- `ServerSession.sendBinary(buffer)`. -/
def sendBinary (info : SessionInfo) (group : List GClient) (st : SessionState)
    (data : List ℕ) : List SessionAction × SessionState :=
  fanOut info (fun id => SessionAction.sendBinaryTo id data) group st

/-- `this.group.clients.get(clientId)`. -/
def lookupClient (group : List GClient) (id : String) : Option GClient :=
  group.find? fun c => c.clientId == id

/-- `ServerSession.end()` (`part_005` lines 110–129): send `session/end`
with the session id directly (`client.send`, not `sendMessage`) to each
still-ready client of the active set, clear the active set, null both
caches, fire `session-end`.  Note that `sessionActive.clear()` does not
call `tearDown()` on the stored wrappers, so `liveBindings` is left as it
was. -/
def endSession (info : SessionInfo) (group : List GClient) (st : SessionState) :
    List SessionAction × SessionState :=
  (st.sessionActive.filterMap (fun id =>
      match lookupClient group id with
      | some c =>
        if c.ready then
          some (SessionAction.sendText id (ServerMsg.sessionEnd info.session_id))
        else none
      | none => none)
    ++ [SessionAction.fireSessionEnd],
   { sessionActive := [], liveBindings := st.liveBindings,
     lastMeta := none, lastArt := none })

/-- `ServerSession._handleGroupRemovedClient` (`part_005` lines 279–291):
on group eviction of an active, still-ready client, tear down its wrapper,
drop it from the active set and send it `session/end`. -/
def handleGroupRemovedClient (info : SessionInfo) (st : SessionState)
    (c : GClient) : List SessionAction × SessionState :=
  if c.clientId ∈ st.sessionActive ∧ c.ready = true then
    ([SessionAction.sendText c.clientId (ServerMsg.sessionEnd info.session_id)],
     dropActive st c.clientId)
  else ([], st)

/-- Concrete inputs exercising `endSession` for claim C7: one ready client,
active with a live event binding. -/
def infoEx7 : SessionInfo :=
  { session_id := "session_1", codec := "pcm", sample_rate := 44100,
    channels := 2, bit_depth := 16, now := 0, codec_header := none }

def groupEx7 : List GClient := [{ clientId := "client_1", ready := true }]

def stEx7 : SessionState :=
  { sessionActive := ["client_1"], liveBindings := ["client_1"],
    lastMeta := none, lastArt := none }

/-- Concrete inputs exercising the fan-out path for claim C1: a ready,
not-yet-active client and a session with cached metadata and art. -/
def infoEx1 : SessionInfo :=
  { session_id := "session_2", codec := "pcm", sample_rate := 44100,
    channels := 2, bit_depth := 16, now := 1000, codec_header := none }

def cEx1 : GClient := { clientId := "client_a", ready := true }

def groupEx1 : List GClient := [cEx1]

def metaEx1 : Metadata :=
  { title := some "A", artist := none, album := none, year := none,
    track := none, group_members := ["x", "y"],
    support_commands := [MediaCommand.play], repeat_mode := "off",
    shuffle := false }

def stEx1 : SessionState :=
  { sessionActive := [], liveBindings := [],
    lastMeta := some metaEx1, lastArt := some [2, 1, 137, 80] }

/-- Concrete inputs exercising `endSession` for claim C6. -/
def groupEx6 : List GClient :=
  [{ clientId := "client_a", ready := true },
   { clientId := "client_b", ready := false }]

def stEx6 : SessionState :=
  { sessionActive := ["client_a", "client_b"],
    liveBindings := ["client_a", "client_b"],
    lastMeta := some metaEx1, lastArt := some [2, 0] }

/-! ## Receiver clock synchronisation (`part_008`,
`Client._handleServerTime`, lines 405–439) -/

/-- `MIN_TIME_DIFF_SAMPLES = 20`: minimum number of offset samples the
receiver wants before it stops scheduling extra exchanges. -/
def MIN_TIME_DIFF_SAMPLES : ℕ := 20

/-- `MAX_TIME_DIFF_SAMPLES = 50`: bound on the sliding window. -/
def MAX_TIME_DIFF_SAMPLES : ℕ := 50

/-- The receiver's clock state: `serverTimeDiffSamples` (the window) and
`serverTimeDiff` (the effective offset, in seconds). -/
structure ReceiverTimeState where
  serverTimeDiffSamples : List ℚ
  serverTimeDiff : ℚ
deriving DecidableEq, Repr

/-- `[...this.serverTimeDiffSamples].sort((a, b) => a - b)`: the ascending
reordering of the window. -/
def sortedWindow (l : List ℚ) : List ℚ :=
  List.insertionSort (· ≤ ·) l

/-- The median computation of `_handleServerTime`: sort ascending, take the
middle element, averaging the two middle elements on even length. -/
def windowMedian (samples : List ℚ) : ℚ :=
  let sorted := sortedWindow samples
  let mid := sorted.length / 2
  if sorted.length % 2 = 0 then (sorted.getD (mid - 1) 0 + sorted.getD mid 0) / 2
  else sorted.getD mid 0

/-- `Client._handleServerTime(payload, receivedAt)`: compute the offset
sample `(source_received − player_transmitted + (source_transmitted −
receivedAt)) / 2 / 1e6` (seconds), push it, shift the oldest sample out
when the window exceeds `MAX_TIME_DIFF_SAMPLES`, otherwise — when the
window is still below `MIN_TIME_DIFF_SAMPLES` — schedule one extra
`player/time` exchange via `setTimeout(…, 10)` (the returned `Option ℚ` is
that delay in milliseconds), then set `serverTimeDiff` to the median of
the window. -/
def handleServerTime (st : ReceiverTimeState)
    (player_transmitted source_received source_transmitted receivedAt : ℚ) :
    ReceiverTimeState × Option ℚ :=
  let offset :=
    (source_received - player_transmitted + (source_transmitted - receivedAt))
      / 2 / 1000000
  let pushed := st.serverTimeDiffSamples ++ [offset]
  let samples :=
    if MAX_TIME_DIFF_SAMPLES < pushed.length then pushed.drop 1 else pushed
  let extra : Option ℚ :=
    if MAX_TIME_DIFF_SAMPLES < pushed.length then none
    else if pushed.length < MIN_TIME_DIFF_SAMPLES then some 10 else none
  ({ serverTimeDiffSamples := samples,
     serverTimeDiff := windowMedian samples }, extra)

/-! ## The PCM wire codec

`ServerSession.sendPCMAudioChunk` (`part_005` lines 189–255) builds an
`ArrayBuffer` through a `DataView`; the receiver's `_handleAudioChunk`
(`part_008` lines 256–376) reads it back.  Buffers are byte lists (each
entry below 256); `DataView` setters become `writeBytes` (exact for
in-range writes, and every write below is in range for the normative
`bit_depth = 16`). -/

/-- `BinaryMessageType.PlayAudioChunk = 1`. -/
def PlayAudioChunkType : ℕ := 1

/-- `BinaryMessageType.MediaArt = 2`. -/
def MediaArtType : ℕ := 2

/-- `HEADER_SIZE = 13`. -/
def HEADER_SIZE : ℕ := 13

/-- The `w` big-endian bytes of `v` (taken mod `256 ^ w`), most
significant first. -/
def natToBytesBE : ℕ → ℕ → List ℕ
  | 0, _ => []
  | w + 1, v => natToBytesBE w (v / 256) ++ [v % 256]

/-- The value of a big-endian byte string. -/
def fromBytesBE (bs : List ℕ) : ℕ :=
  bs.foldl (fun acc b => acc * 256 + b) 0

/-- The 64-bit two's-complement pattern `setBigInt64` stores for
`BigInt(timestamp)`. -/
def uint64OfInt (t : ℤ) : ℕ := (t % (2 ^ 64 : ℤ)).toNat

/-- `getBigInt64`: read the 64-bit pattern back as a signed integer. -/
def int64OfUint (n : ℕ) : ℤ :=
  if n < 2 ^ 63 then (n : ℤ) else (n : ℤ) - 2 ^ 64

/-- The two little-endian bytes `setInt16(…, v, true)` stores. -/
def int16LE (v : ℤ) : List ℕ :=
  [(v % (2 ^ 16 : ℤ)).toNat % 256, (v % (2 ^ 16 : ℤ)).toNat / 256]

/-- `getInt16(…, true)`: two little-endian bytes as a signed 16-bit
integer. -/
def int16OfBytesLE (b0 b1 : ℕ) : ℤ :=
  if b0 + 256 * b1 < 2 ^ 15 then (b0 + 256 * b1 : ℤ)
  else (b0 + 256 * b1 : ℤ) - 2 ^ 16

/-- `Math.max(-1, Math.min(1, x))`. -/
def jsClamp (x : ℚ) : ℚ := max (-1) (min 1 x)

/-- `Math.round(x)` for finite arguments: half-up rounding. -/
def jsRound (x : ℚ) : ℤ := ⌊x + 1 / 2⌋

/-- The encoder's sample conversion: clamp to [-1, 1], scale by 32767,
round. -/
def encodeSample (x : ℚ) : ℤ := jsRound (jsClamp x * 32767)

/-- The decoder's sample conversion: `sample / 32768`. -/
def decodeSample (k : ℤ) : ℚ := (k : ℚ) / 32768

/-- Overwrite `bs` into `buf` at offset `off` (`DataView` setter
semantics for an in-range write). -/
def writeBytes (buf : List ℕ) (off : ℕ) (bs : List ℕ) : List ℕ :=
  buf.take off ++ bs ++ buf.drop (off + bs.length)

/-- `ServerSession.writeAudioPacketHeader(data, timestamp, sampleCount)`:
`setUint8(0, 1)`, `setBigInt64(1, BigInt(timestamp), false)`,
`setUint32(9, sampleCount, false)`. -/
def writeAudioPacketHeader (buf : List ℕ) (timestamp : ℤ) (sampleCount : ℕ) :
    List ℕ :=
  writeBytes
    (writeBytes (writeBytes buf 0 [PlayAudioChunkType])
      1 (natToBytesBE 8 (uint64OfInt timestamp)))
    9 (natToBytesBE 4 (sampleCount % 2 ^ 32))

/-- The sample-writing double loop of `sendPCMAudioChunk`: for each frame
`i` and channel, clamp and round `floatData[channel][i]` and
`setInt16` it (little-endian) at
`HEADER_SIZE + (i * channels + channel) * bytesPerSample`. -/
def writeAudioData (buf : List ℕ) (channels bytesPerSample : ℕ)
    (floatData : List (List ℚ)) (sampleCount : ℕ) : List ℕ :=
  (List.range sampleCount).foldl (fun b i =>
    (List.range channels).foldl (fun b channel =>
      writeBytes b (HEADER_SIZE + (i * channels + channel) * bytesPerSample)
        (int16LE (encodeSample ((floatData.getD channel []).getD i 0)))) b) buf

/-- The two admissible argument shapes of `sendPCMAudioChunk`:
an interleaved `Int16Array` or a (mono) `Float32Array`. -/
inductive PCMData where
  | int16 (samples : List ℤ)
  | float32 (samples : List ℚ)
deriving DecidableEq, Repr

/-- The int16 branch of `sendPCMAudioChunk`: de-interleave into
`channels` float planes of `Math.floor(length / channels)` samples,
each sample `pcmData[i * channels + ch] / 32768`. -/
def deinterleave (channels : ℕ) (data : List ℤ) : List (List ℚ) :=
  (List.range channels).map fun ch =>
    (List.range (data.length / channels)).map fun i =>
      ((data.getD (i * channels + ch) 0 : ℤ) : ℚ) / 32768

/-- `ServerSession.sendPCMAudioChunk(pcmData, timestamp)`: convert the
input to float planes (a lone `Float32Array` is assumed mono), validate
the plane count against the session's channel count (throwing
`Channel mismatch` on failure, before anything is sent), then build the
binary frame and hand it to the binary fan-out.  The returned `.ok`
value is the frame handed to `sendBinary`; `.error` is the thrown
message. -/
def sendPCMAudioChunk (s : SessionInfo) (pcmData : PCMData) (timestamp : ℤ) :
    Except String (List ℕ) :=
  let floatData : List (List ℚ) :=
    match pcmData with
    | .int16 data => deinterleave s.channels data
    | .float32 data => [data]
  if floatData.length ≠ s.channels then
    Except.error ("Channel mismatch: expected " ++ toString s.channels
      ++ ", got " ++ toString floatData.length)
  else
    let sampleCount := (floatData.getD 0 []).length
    let bytesPerSample := s.bit_depth / 8
    let dataSize := sampleCount * s.channels * bytesPerSample
    Except.ok (writeAudioData
      (writeAudioPacketHeader (List.replicate (HEADER_SIZE + dataSize) 0)
        timestamp sampleCount)
      s.channels bytesPerSample floatData sampleCount)

/-- `(data.drop off).take len`: the bytes a `DataView` getter reads. -/
def getBytes (data : List ℕ) (off len : ℕ) : List ℕ :=
  (data.drop off).take len

/-- `dataView.getBigInt64(off, false)` followed by `Number(…)` (exact on
the safe-integer range). -/
def getBigInt64BE (data : List ℕ) (off : ℕ) : ℤ :=
  int64OfUint (fromBytesBE (getBytes data off 8))

/-- `dataView.getUint32(off, false)`. -/
def getUint32BE (data : List ℕ) (off : ℕ) : ℕ :=
  fromBytesBE (getBytes data off 4)

/-- `dataView.getInt16(off, true)`. -/
def getInt16LEAt (data : List ℕ) (off : ℕ) : ℤ :=
  int16OfBytesLE (data.getD off 0) (data.getD (off + 1) 0)

/-- `Client._handleAudioChunk(data)`: read the timestamp (bytes 1–8,
big-endian int64) and sample count (bytes 9–12, big-endian uint32), check
`sampleCount * channels * 2 = byteLength − 13` (logging and dropping the
frame on mismatch — `none`), then fill one float plane per channel with
`getInt16(13 + i * channels * 2 + channel * 2, true) / 32768`.  A frame
too short for the header reads is also dropped (`DataView` throws).  The
result carries the decoded timestamp, sample count and channel planes. -/
def handleAudioChunk (s : SessionInfo) (data : List ℕ) :
    Option (ℤ × ℕ × List (List ℚ)) :=
  if data.length < HEADER_SIZE then none
  else
    let startTimeAtServer := getBigInt64BE data 1
    let sampleCount := getUint32BE data 9
    let bytesPerSample := 2
    let expectedDataSize := sampleCount * s.channels * bytesPerSample
    let actualDataSize := data.length - HEADER_SIZE
    if expectedDataSize ≠ actualDataSize then none
    else
      some (startTimeAtServer, sampleCount,
        (List.range s.channels).map fun channel =>
          (List.range sampleCount).map fun i =>
            decodeSample (getInt16LEAt data
              (HEADER_SIZE + i * s.channels * bytesPerSample
                + channel * bytesPerSample)))

/-- Projections of a decoded chunk (defaulting on `none`). -/
def decodedTimestamp (o : Option (ℤ × ℕ × List (List ℚ))) : ℤ :=
  (o.getD (0, 0, [])).1

def decodedSampleCount (o : Option (ℤ × ℕ × List (List ℚ))) : ℕ :=
  (o.getD (0, 0, [])).2.1

def decodedPlanes (o : Option (ℤ × ℕ × List (List ℚ))) : List (List ℚ) :=
  (o.getD (0, 0, [])).2.2

/-- Concrete session and input for the codec witnesses: stereo 16-bit. -/
def sEx3 : SessionInfo :=
  { session_id := "s3", codec := "pcm", sample_rate := 44100,
    channels := 2, bit_depth := 16, now := 0, codec_header := none }

/-! ## Claim theorems -/

theorem arraysEqual_eq_true_iff {α : Type} [DecidableEq α] :
    ∀ a b : List α, arraysEqual a b = true ↔ a = b
  | [], [] => by simp [arraysEqual]
  | [], _ :: _ => by simp [arraysEqual]
  | _ :: _, [] => by simp [arraysEqual]
  | x :: xs, y :: ys => by
    simp [arraysEqual, arraysEqual_eq_true_iff xs ys]

/-- An empty delta is computed exactly when no field changed, which for the
nine fields of `Metadata` amounts to the two objects being equal. -/
theorem computeDelta_isEmpty_iff (last m : Metadata) :
    (computeDelta last m).isEmpty = true ↔ last = m := by
  constructor
  · intro h
    simp only [PartialMetadata.isEmpty, computeDelta, Bool.and_eq_true,
      Option.isNone_iff_eq_none] at h
    obtain ⟨⟨⟨⟨⟨⟨⟨⟨h1, h2⟩, h3⟩, h4⟩, h5⟩, h6⟩, h7⟩, h8⟩, h9⟩ := h
    have t1 : last.title = m.title := by by_contra hne; simp [hne] at h1
    have t2 : last.artist = m.artist := by by_contra hne; simp [hne] at h2
    have t3 : last.album = m.album := by by_contra hne; simp [hne] at h3
    have t4 : last.year = m.year := by by_contra hne; simp [hne] at h4
    have t5 : last.track = m.track := by by_contra hne; simp [hne] at h5
    have t6 : last.group_members = m.group_members := by
      by_contra hne; simp [arraysEqual_eq_true_iff, hne] at h6
    have t7 : last.support_commands = m.support_commands := by
      by_contra hne; simp [arraysEqual_eq_true_iff, hne] at h7
    have t8 : last.repeat_mode = m.repeat_mode := by by_contra hne; simp [hne] at h8
    have t9 : last.shuffle = m.shuffle := by by_contra hne; simp [hne] at h9
    cases last; cases m
    simp_all
  · rintro rfl
    simp [PartialMetadata.isEmpty, computeDelta, arraysEqual_eq_true_iff]

/-- C2. `ServerSession.sendMetadata(m)`: with no metadata reported yet, the
full object is sent and cached.  Otherwise a field-by-field delta is
computed — scalar fields by equality, the list fields `group_members` and
`support_commands` by element-wise equality (which `arraysEqual_eq_true_iff`
identifies with list equality, order included) — and the sent payload
contains exactly the changed fields with their new values; nothing is sent
iff no field changed, in which case the cache is untouched; when a delta is
sent, the new cache is the spread merge of the old cache with the delta. -/
theorem c2_sendMetadata_delta (last m : Metadata) :
    (sendMetadata none m = (some (fullPayload m), some m))
    ∧ (∀ p : PartialMetadata, (sendMetadata (some last) m).1 = some p →
        (p.title = if last.title = m.title then none else some m.title)
        ∧ (p.artist = if last.artist = m.artist then none else some m.artist)
        ∧ (p.album = if last.album = m.album then none else some m.album)
        ∧ (p.year = if last.year = m.year then none else some m.year)
        ∧ (p.track = if last.track = m.track then none else some m.track)
        ∧ (p.group_members =
            if last.group_members = m.group_members then none else some m.group_members)
        ∧ (p.support_commands =
            if last.support_commands = m.support_commands then none
            else some m.support_commands)
        ∧ (p.repeat_mode =
            if last.repeat_mode = m.repeat_mode then none else some m.repeat_mode)
        ∧ (p.shuffle = if last.shuffle = m.shuffle then none else some m.shuffle)
        ∧ (sendMetadata (some last) m).2 = some (applyDelta last p))
    ∧ ((sendMetadata (some last) m).1 = none ↔ last = m)
    ∧ ((sendMetadata (some last) m).1 = none →
        (sendMetadata (some last) m).2 = some last) := by
  refine ⟨rfl, ?_, ?_, ?_⟩
  · intro p hp
    by_cases hemp : (computeDelta last m).isEmpty
    · simp [sendMetadata, hemp] at hp
    · have hp' : p = computeDelta last m := by
        simp only [sendMetadata, hemp, Bool.false_eq_true, if_false,
          Option.some.injEq] at hp
        exact hp.symm
      subst hp'
      refine ⟨?_, ?_, ?_, ?_, ?_, ?_, ?_, ?_, ?_, ?_⟩ <;>
        first
          | (simp only [computeDelta, ne_eq, arraysEqual_eq_true_iff, ite_not]; done)
          | simp [sendMetadata, hemp]
  · by_cases hemp : (computeDelta last m).isEmpty
    · have hlm : last = m := (computeDelta_isEmpty_iff last m).mp hemp
      subst hlm
      simp [sendMetadata, hemp]
    · have hne : ¬ last = m := fun h => hemp ((computeDelta_isEmpty_iff last m).mpr h)
      simp [sendMetadata, hemp, hne]
  · intro hnone
    by_cases hemp : (computeDelta last m).isEmpty
    · simp [sendMetadata, hemp]
    · simp [sendMetadata, hemp] at hnone

/-- C8 (corrected), counterexample: in the `part_006` variant, a client
whose socket is open but whose `playerInfo` is still null is already
`isReady()`, so "ready iff open AND PlayerInfo received" fails there. -/
theorem c8_isReady_counterexample :
    isReady_v006 true (none : Option PlayerInfo) = true
    ∧ (none : Option PlayerInfo).isSome = false := ⟨rfl, rfl⟩

/-- C8 (amended): `isReady()` in the `part_007` variant returns true iff
the socket is open and a `PlayerInfo` has been received via `player/hello`;
in the `part_006` variant it returns true iff the socket is open, with no
condition on `PlayerInfo`. -/
theorem c8_isReady_characterisation (socketOpen : Bool) (playerInfo : Option PlayerInfo) :
    (isReady_v007 socketOpen playerInfo = true
      ↔ socketOpen = true ∧ playerInfo.isSome = true)
    ∧ (isReady_v006 socketOpen playerInfo = true ↔ socketOpen = true) := by
  constructor
  · simp [isReady_v007]
  · simp [isReady_v006]

/-! ### Fan-out lemmas -/

/-- Unfolding `fanOut` at a not-ready client. -/
theorem fanOut_cons_notReady (info : SessionInfo) (deliver : String → SessionAction)
    (a : GClient) (rest : List GClient) (st : SessionState)
    (hr : a.ready = false) :
    fanOut info deliver (a :: rest) st =
      fanOut info deliver rest
        (if a.clientId ∈ st.sessionActive then dropActive st a.clientId else st) := by
  simp [fanOut, hr]

/-- Unfolding `fanOut` at a ready, already-active client. -/
theorem fanOut_cons_active (info : SessionInfo) (deliver : String → SessionAction)
    (a : GClient) (rest : List GClient) (st : SessionState)
    (hready : a.ready = true) (hmem : a.clientId ∈ st.sessionActive) :
    fanOut info deliver (a :: rest) st =
      (deliver a.clientId :: (fanOut info deliver rest st).1,
       (fanOut info deliver rest st).2) := by
  simp [fanOut, hready, hmem]

/-- Unfolding `fanOut` at a ready client not yet active: the activation
sequence runs first. -/
theorem fanOut_cons_activate (info : SessionInfo) (deliver : String → SessionAction)
    (a : GClient) (rest : List GClient) (st : SessionState)
    (hready : a.ready = true) (hnew : a.clientId ∉ st.sessionActive) :
    fanOut info deliver (a :: rest) st =
      ((SessionAction.sendText a.clientId (ServerMsg.sessionStart info) ::
          ((match st.lastMeta with
            | some m =>
              [SessionAction.sendText a.clientId
                (ServerMsg.metadataUpdate (fullPayload m))]
            | none => []) ++
           (match st.lastArt with
            | some art => [SessionAction.sendBinaryTo a.clientId art]
            | none => []))) ++
        deliver a.clientId ::
          (fanOut info deliver rest (activate st a.clientId)).1,
       (fanOut info deliver rest (activate st a.clientId)).2) := by
  simp [fanOut, hready, hnew]

/-- Every action emitted by the fan-out loop is addressed to one of the
clients it walked. -/
theorem fanOut_action_addressed (info : SessionInfo)
    (deliver : String → SessionAction)
    (hdeliver : ∀ id, actionClientId (deliver id) = some id) :
    ∀ (l : List GClient) (st : SessionState),
      ∀ e ∈ (fanOut info deliver l st).1,
        ∃ c ∈ l, actionClientId e = some c.clientId := by
  intro l
  induction l with
  | nil => intro st e he; simp [fanOut] at he
  | cons a rest ih =>
    intro st e he
    by_cases hr : a.ready = false
    · rw [fanOut_cons_notReady info deliver a rest st hr] at he
      obtain ⟨c, hc, hid⟩ := ih _ e he
      exact ⟨c, List.mem_cons_of_mem _ hc, hid⟩
    · have hready : a.ready = true := by revert hr; cases a.ready <;> simp
      by_cases hmem : a.clientId ∈ st.sessionActive
      · rw [fanOut_cons_active info deliver a rest st hready hmem] at he
        rcases List.mem_cons.mp he with rfl | he'
        · exact ⟨a, List.mem_cons_self a rest, hdeliver _⟩
        · obtain ⟨c, hc, hid⟩ := ih _ e he'
          exact ⟨c, List.mem_cons_of_mem _ hc, hid⟩
      · rw [fanOut_cons_activate info deliver a rest st hready hmem] at he
        rcases List.mem_append.mp he with hcu | he'
        · refine ⟨a, List.mem_cons_self a rest, ?_⟩
          rcases List.mem_cons.mp hcu with rfl | hcu'
          · rfl
          · rcases List.mem_append.mp hcu' with hm | ha
            · rcases hLM : st.lastMeta with _ | m <;> rw [hLM] at hm
              · simp at hm
              · rcases List.mem_singleton.mp hm with rfl
                rfl
            · rcases hLA : st.lastArt with _ | art <;> rw [hLA] at ha
              · simp at ha
              · rcases List.mem_singleton.mp ha with rfl
                rfl
        · rcases List.mem_cons.mp he' with rfl | he''
          · exact ⟨a, List.mem_cons_self a rest, hdeliver _⟩
          · obtain ⟨c, hc, hid⟩ := ih _ e he''
            exact ⟨c, List.mem_cons_of_mem _ hc, hid⟩

/-- An active client whose id is not among the walked clients stays
active through a fan-out. -/
theorem fanOut_active_mono (info : SessionInfo) (deliver : String → SessionAction) :
    ∀ (l : List GClient) (st : SessionState) (id : String),
      id ∈ st.sessionActive → id ∉ l.map GClient.clientId →
      id ∈ (fanOut info deliver l st).2.sessionActive := by
  intro l
  induction l with
  | nil => intro st id hid _; simpa [fanOut] using hid
  | cons a rest ih =>
    intro st id hid hnl
    have hne : id ≠ a.clientId := by
      intro h; exact hnl (by simp [h])
    have hnl' : id ∉ rest.map GClient.clientId := by
      intro h; exact hnl (by simp [h])
    by_cases hr : a.ready = false
    · rw [fanOut_cons_notReady info deliver a rest st hr]
      apply ih _ id _ hnl'
      by_cases hmem : a.clientId ∈ st.sessionActive
      · simp only [hmem, if_true, dropActive]
        exact (List.mem_erase_of_ne hne).mpr hid
      · simpa [hmem] using hid
    · have hready : a.ready = true := by revert hr; cases a.ready <;> simp
      by_cases hmem : a.clientId ∈ st.sessionActive
      · rw [fanOut_cons_active info deliver a rest st hready hmem]
        exact ih st id hid hnl'
      · rw [fanOut_cons_activate info deliver a rest st hready hmem]
        apply ih _ id _ hnl'
        simp [activate, hid]

theorem actionsTo_nil (id : String) : actionsTo id [] = [] := rfl

theorem actionsTo_append (id : String) (evs1 evs2 : List SessionAction) :
    actionsTo id (evs1 ++ evs2) = actionsTo id evs1 ++ actionsTo id evs2 := by
  simp [actionsTo]

theorem actionsTo_cons_self (id : String) (e : SessionAction)
    (he : actionClientId e = some id) (evs : List SessionAction) :
    actionsTo id (e :: evs) = e :: actionsTo id evs := by
  simp [actionsTo, List.filter_cons, he]

theorem actionsTo_cons_other (id : String) (e : SessionAction)
    (he : actionClientId e ≠ some id) (evs : List SessionAction) :
    actionsTo id (e :: evs) = actionsTo id evs := by
  simp [actionsTo, List.filter_cons, beq_iff_eq, he]

theorem actionsTo_all_self (id : String) (l : List SessionAction)
    (h : ∀ e ∈ l, actionClientId e = some id) : actionsTo id l = l := by
  apply List.filter_eq_self.mpr
  intro e he
  simp [h e he]

theorem actionsTo_all_other (id : String) (l : List SessionAction)
    (h : ∀ e ∈ l, actionClientId e ≠ some id) : actionsTo id l = [] := by
  apply List.filter_eq_nil_iff.mpr
  intro e he
  simp [h e he]

/-- The core of claim C1: for a ready client not yet in the active set, a
fan-out delivers to it exactly `session/start`, the cached metadata (if
non-null), the cached art (if non-null), then the fanned-out action, and
marks it active. -/
theorem fanOut_first_delivery (info : SessionInfo)
    (deliver : String → SessionAction)
    (hdeliver : ∀ id, actionClientId (deliver id) = some id) :
    ∀ (l : List GClient) (st : SessionState) (c : GClient),
      c ∈ l → (l.map GClient.clientId).Nodup → c.ready = true →
      c.clientId ∉ st.sessionActive →
      actionsTo c.clientId (fanOut info deliver l st).1 =
        SessionAction.sendText c.clientId (ServerMsg.sessionStart info) ::
          (st.lastMeta.toList.map fun m =>
            SessionAction.sendText c.clientId
              (ServerMsg.metadataUpdate (fullPayload m))) ++
          (st.lastArt.toList.map fun art =>
            SessionAction.sendBinaryTo c.clientId art) ++
          [deliver c.clientId]
      ∧ c.clientId ∈ (fanOut info deliver l st).2.sessionActive := by
  intro l
  induction l with
  | nil => intro st c hc; exact absurd hc (List.not_mem_nil c)
  | cons a rest ih =>
    intro st c hc hnd hready hnew
    have hnd' : (a.clientId :: rest.map GClient.clientId).Nodup := by simpa using hnd
    have hnd1 : a.clientId ∉ rest.map GClient.clientId := (List.nodup_cons.mp hnd').1
    have hnd2 : (rest.map GClient.clientId).Nodup := (List.nodup_cons.mp hnd').2
    rcases List.mem_cons.mp hc with rfl | hcrest
    · -- the walked client is `c` itself: it activates here
      rw [fanOut_cons_activate info deliver c rest st hready hnew]
      have hrec : actionsTo c.clientId
          (fanOut info deliver rest (activate st c.clientId)).1 = [] := by
        apply List.filter_eq_nil_iff.mpr
        intro e he
        obtain ⟨c', hc', hid⟩ := fanOut_action_addressed info deliver hdeliver rest _ e he
        have hne : c'.clientId ≠ c.clientId := by
          intro h
          exact hnd1 (h ▸ List.mem_map_of_mem GClient.clientId hc')
        simp [hid, hne]
      have hM : (match st.lastMeta with
          | some m =>
            [SessionAction.sendText c.clientId
              (ServerMsg.metadataUpdate (fullPayload m))]
          | none => []) =
          st.lastMeta.toList.map (fun m =>
            SessionAction.sendText c.clientId
              (ServerMsg.metadataUpdate (fullPayload m))) := by
        cases st.lastMeta <;> rfl
      have hA : (match st.lastArt with
          | some art => [SessionAction.sendBinaryTo c.clientId art]
          | none => []) =
          st.lastArt.toList.map (fun art =>
            SessionAction.sendBinaryTo c.clientId art) := by
        cases st.lastArt <;> rfl
      constructor
      · rw [hM, hA]
        have hMA : actionsTo c.clientId
            (st.lastMeta.toList.map (fun m =>
                SessionAction.sendText c.clientId
                  (ServerMsg.metadataUpdate (fullPayload m))) ++
              st.lastArt.toList.map (fun art =>
                SessionAction.sendBinaryTo c.clientId art)) =
            st.lastMeta.toList.map (fun m =>
                SessionAction.sendText c.clientId
                  (ServerMsg.metadataUpdate (fullPayload m))) ++
              st.lastArt.toList.map (fun art =>
                SessionAction.sendBinaryTo c.clientId art) := by
          apply actionsTo_all_self
          intro e he
          rcases List.mem_append.mp he with h | h
          · obtain ⟨m, _, rfl⟩ := List.mem_map.mp h
            rfl
          · obtain ⟨art, _, rfl⟩ := List.mem_map.mp h
            rfl
        rw [actionsTo_append,
          actionsTo_cons_self c.clientId
            (SessionAction.sendText c.clientId (ServerMsg.sessionStart info)) rfl,
          hMA, actionsTo_cons_self c.clientId (deliver c.clientId) (hdeliver _), hrec]
        simp
      · apply fanOut_active_mono info deliver rest _ c.clientId _ hnd1
        simp [activate]
    · -- the walked client is someone else
      have hcid : c.clientId ∈ rest.map GClient.clientId :=
        List.mem_map_of_mem GClient.clientId hcrest
      have hane : a.clientId ≠ c.clientId := by
        intro h; exact hnd1 (h ▸ hcid)
      by_cases hr : a.ready = false
      · rw [fanOut_cons_notReady info deliver a rest st hr]
        by_cases hmem : a.clientId ∈ st.sessionActive
        · simp only [hmem, if_true]
          have hnew' : c.clientId ∉ (dropActive st a.clientId).sessionActive := by
            intro h
            exact hnew (List.mem_of_mem_erase h)
          exact ih (dropActive st a.clientId) c hcrest hnd2 hready hnew'
        · simp only [hmem, if_false]
          exact ih st c hcrest hnd2 hready hnew
      · have hreadya : a.ready = true := by revert hr; cases a.ready <;> simp
        by_cases hmem : a.clientId ∈ st.sessionActive
        · rw [fanOut_cons_active info deliver a rest st hreadya hmem]
          have hIH := ih st c hcrest hnd2 hready hnew
          refine ⟨?_, hIH.2⟩
          have hpred : actionClientId (deliver a.clientId) ≠ some c.clientId := by
            simp [hdeliver, hane]
          rw [actionsTo_cons_other c.clientId _ hpred]
          exact hIH.1
        · rw [fanOut_cons_activate info deliver a rest st hreadya hmem]
          have hca : c.clientId ≠ a.clientId := fun h => hane h.symm
          have hnew' : c.clientId ∉ (activate st a.clientId).sessionActive := by
            simp [activate, hnew, hca]
          have hIH := ih (activate st a.clientId) c hcrest hnd2 hready hnew'
          refine ⟨?_, hIH.2⟩
          have h1 := hIH.1
          rw [show (activate st a.clientId).lastMeta = st.lastMeta from rfl,
            show (activate st a.clientId).lastArt = st.lastArt from rfl] at h1
          have hother : ∀ e ∈ (SessionAction.sendText a.clientId
                (ServerMsg.sessionStart info) ::
                ((match st.lastMeta with
                  | some m =>
                    [SessionAction.sendText a.clientId
                      (ServerMsg.metadataUpdate (fullPayload m))]
                  | none => []) ++
                 (match st.lastArt with
                  | some art => [SessionAction.sendBinaryTo a.clientId art]
                  | none => []))),
              actionClientId e ≠ some c.clientId := by
            intro e he
            rcases List.mem_cons.mp he with rfl | he'
            · simp [actionClientId, hane]
            · rcases List.mem_append.mp he' with h | h
              · rcases hLM : st.lastMeta with _ | m <;> rw [hLM] at h
                · simp at h
                · rcases List.mem_singleton.mp h with rfl
                  simp [actionClientId, hane]
              · rcases hLA : st.lastArt with _ | art <;> rw [hLA] at h
                · simp at h
                · rcases List.mem_singleton.mp h with rfl
                  simp [actionClientId, hane]
          have hpred : actionClientId (deliver a.clientId) ≠ some c.clientId := by
            simp [hdeliver, hane]
          rw [actionsTo_append, actionsTo_all_other _ _ hother,
            actionsTo_cons_other _ _ hpred, h1]
          simp

/-- C1. On both fan-out paths (`sendMessage` and `sendBinary`), a ready
client of the session's group that is not yet in the active set receives,
in order: `session/start` with the session's `SessionInfo`, then — if the
last-reported metadata is non-null — a full `metadata/update`, then — if
the cached art frame is non-null — the stored art binary frame, and only
then the fanned-out message itself; afterwards the client is in the active
set.  Hence a client receiving its first session-scoped message has
already received `session/start` and the non-null cached metadata and
art. -/
theorem c1_activation_precedes_first_delivery
    (info : SessionInfo) (group : List GClient) (st : SessionState)
    (msg : ServerMsg) (data : List ℕ) (c : GClient)
    (hmem : c ∈ group) (hnodup : (group.map GClient.clientId).Nodup)
    (hready : c.ready = true) (hnew : c.clientId ∉ st.sessionActive) :
    (actionsTo c.clientId (sendMessage info group st msg).1 =
        SessionAction.sendText c.clientId (ServerMsg.sessionStart info) ::
          (st.lastMeta.toList.map fun m =>
            SessionAction.sendText c.clientId
              (ServerMsg.metadataUpdate (fullPayload m))) ++
          (st.lastArt.toList.map fun art =>
            SessionAction.sendBinaryTo c.clientId art) ++
          [SessionAction.sendText c.clientId msg]
      ∧ c.clientId ∈ (sendMessage info group st msg).2.sessionActive)
    ∧ (actionsTo c.clientId (sendBinary info group st data).1 =
        SessionAction.sendText c.clientId (ServerMsg.sessionStart info) ::
          (st.lastMeta.toList.map fun m =>
            SessionAction.sendText c.clientId
              (ServerMsg.metadataUpdate (fullPayload m))) ++
          (st.lastArt.toList.map fun art =>
            SessionAction.sendBinaryTo c.clientId art) ++
          [SessionAction.sendBinaryTo c.clientId data]
      ∧ c.clientId ∈ (sendBinary info group st data).2.sessionActive) :=
  ⟨fanOut_first_delivery info (fun id => SessionAction.sendText id msg)
      (fun _ => rfl) group st c hmem hnodup hready hnew,
   fanOut_first_delivery info (fun id => SessionAction.sendBinaryTo id data)
      (fun _ => rfl) group st c hmem hnodup hready hnew⟩

/-- C1, witnessed at a concrete group, state (cached metadata and art both
present) and message. -/
theorem c1_witness :
    cEx1 ∈ groupEx1 ∧ (groupEx1.map GClient.clientId).Nodup
    ∧ cEx1.ready = true ∧ cEx1.clientId ∉ stEx1.sessionActive
    ∧ ((actionsTo cEx1.clientId
          (sendMessage infoEx1 groupEx1 stEx1 (ServerMsg.sessionEnd "z")).1 =
        SessionAction.sendText cEx1.clientId (ServerMsg.sessionStart infoEx1) ::
          (stEx1.lastMeta.toList.map fun m =>
            SessionAction.sendText cEx1.clientId
              (ServerMsg.metadataUpdate (fullPayload m))) ++
          (stEx1.lastArt.toList.map fun art =>
            SessionAction.sendBinaryTo cEx1.clientId art) ++
          [SessionAction.sendText cEx1.clientId (ServerMsg.sessionEnd "z")]
      ∧ cEx1.clientId ∈
          (sendMessage infoEx1 groupEx1 stEx1 (ServerMsg.sessionEnd "z")).2.sessionActive)
    ∧ (actionsTo cEx1.clientId (sendBinary infoEx1 groupEx1 stEx1 [1, 0]).1 =
        SessionAction.sendText cEx1.clientId (ServerMsg.sessionStart infoEx1) ::
          (stEx1.lastMeta.toList.map fun m =>
            SessionAction.sendText cEx1.clientId
              (ServerMsg.metadataUpdate (fullPayload m))) ++
          (stEx1.lastArt.toList.map fun art =>
            SessionAction.sendBinaryTo cEx1.clientId art) ++
          [SessionAction.sendBinaryTo cEx1.clientId [1, 0]]
      ∧ cEx1.clientId ∈
          (sendBinary infoEx1 groupEx1 stEx1 [1, 0]).2.sessionActive)) :=
  ⟨by decide, by decide, by decide, by decide,
   c1_activation_precedes_first_delivery infoEx1 groupEx1 stEx1
     (ServerMsg.sessionEnd "z") [1, 0] cEx1 (by decide) (by decide) (by decide)
     (by decide)⟩

/-- C6. `ServerSession.end()`: every action it emits is either the final
`fire("session-end")` or a `session/end` text message carrying the session
id, sent directly (`client.send`) to a member of the active set whose
group client exists and is still ready — so no `session/start`, metadata,
or binary frame goes out and no client is activated during teardown;
conversely every still-ready active client gets its `session/end`; the
`session-end` event is fired last; afterwards the active set is empty and
both caches are null. -/
theorem c6_endSession (info : SessionInfo) (group : List GClient) (st : SessionState) :
    (∀ id ∈ st.sessionActive, ∀ c, lookupClient group id = some c →
      c.ready = true →
        SessionAction.sendText id (ServerMsg.sessionEnd info.session_id)
          ∈ (endSession info group st).1)
    ∧ (∀ e ∈ (endSession info group st).1,
        e = SessionAction.fireSessionEnd
        ∨ ∃ id c, id ∈ st.sessionActive ∧ lookupClient group id = some c
            ∧ c.ready = true
            ∧ e = SessionAction.sendText id (ServerMsg.sessionEnd info.session_id))
    ∧ (endSession info group st).1.getLast? = some SessionAction.fireSessionEnd
    ∧ (endSession info group st).2.sessionActive = []
    ∧ (endSession info group st).2.lastMeta = none
    ∧ (endSession info group st).2.lastArt = none := by
  refine ⟨?_, ?_, ?_, rfl, rfl, rfl⟩
  · intro id hid c hc hr
    apply List.mem_append_left
    apply List.mem_filterMap.mpr
    refine ⟨id, hid, ?_⟩
    rw [hc]
    simp [hr]
  · intro e he
    rcases List.mem_append.mp he with h | h
    · right
      obtain ⟨id, hid, hf⟩ := List.mem_filterMap.mp h
      rcases hlc : lookupClient group id with _ | c <;> rw [hlc] at hf
      · simp at hf
      · by_cases hr : c.ready
        · simp only [hr, if_true, Option.some.injEq] at hf
          exact ⟨id, c, hid, hlc, hr, hf.symm⟩
        · simp [hr] at hf
    · left
      simpa using h
  · simp [endSession]

/-- C7 (the code at the failing input): `end()` on a session whose active
set holds one ready, event-bound client empties the active set — so the
client's entry is removed — yet its `ClientEventWrapper` listeners stay
subscribed (`sessionActive.clear()` never calls `tearDown()`), and the
client did receive the direct `session/end`. -/
theorem c7_end_clears_without_teardown :
    (endSession infoEx7 groupEx7 stEx7).2.sessionActive = []
    ∧ (endSession infoEx7 groupEx7 stEx7).2.liveBindings = ["client_1"]
    ∧ (endSession infoEx7 groupEx7 stEx7).1 =
        [SessionAction.sendText "client_1" (ServerMsg.sessionEnd "session_1"),
         SessionAction.fireSessionEnd] := by
  refine ⟨rfl, rfl, ?_⟩
  decide

/-- C4. The receiver's offset window: processing a `source/time` response
on a window of at most 50 samples leaves at most 50 samples; whenever the
window (after the sample is recorded) holds fewer than 20 samples, an
extra `player/time` exchange is scheduled after 10 ms ≤ 20 ms; and the
effective offset `serverTimeDiff` applied to scheduling is the median of
the current window (`windowMedian` over `sortedWindow`, which is a sorted
permutation of the window). -/
theorem c4_offset_window (st : ReceiverTimeState) (T0 T1 T2 T3 : ℚ)
    (hlen : st.serverTimeDiffSamples.length ≤ 50) :
    (handleServerTime st T0 T1 T2 T3).1.serverTimeDiffSamples.length ≤ 50
    ∧ ((handleServerTime st T0 T1 T2 T3).1.serverTimeDiffSamples.length < 20 →
        (handleServerTime st T0 T1 T2 T3).2 = some 10 ∧ (10 : ℚ) ≤ 20)
    ∧ (handleServerTime st T0 T1 T2 T3).1.serverTimeDiff =
        windowMedian (handleServerTime st T0 T1 T2 T3).1.serverTimeDiffSamples
    ∧ List.Sorted (· ≤ ·)
        (sortedWindow (handleServerTime st T0 T1 T2 T3).1.serverTimeDiffSamples)
    ∧ (sortedWindow
        (handleServerTime st T0 T1 T2 T3).1.serverTimeDiffSamples).Perm
        (handleServerTime st T0 T1 T2 T3).1.serverTimeDiffSamples := by
  refine ⟨?_, ?_, ?_, ?_, ?_⟩
  · by_cases h50 : MAX_TIME_DIFF_SAMPLES < st.serverTimeDiffSamples.length + 1 <;>
      · simp only [handleServerTime, List.length_append, List.length_cons,
          List.length_nil, h50, if_true, if_false, List.length_drop]
        simp only [MAX_TIME_DIFF_SAMPLES] at *
        omega
  · intro hwin
    by_cases h50 : MAX_TIME_DIFF_SAMPLES < st.serverTimeDiffSamples.length + 1
    · exfalso
      simp only [handleServerTime, List.length_append, List.length_cons,
        List.length_nil, h50, if_true, List.length_drop] at hwin
      simp only [MAX_TIME_DIFF_SAMPLES] at h50
      omega
    · simp only [handleServerTime, List.length_append, List.length_cons,
        List.length_nil, h50, if_false] at hwin ⊢
      have h20 : st.serverTimeDiffSamples.length + 1 < MIN_TIME_DIFF_SAMPLES := by
        simpa [MIN_TIME_DIFF_SAMPLES] using hwin
      exact ⟨by simp [h20], by norm_num⟩
  · simp [handleServerTime]
  · exact List.sorted_insertionSort _ _
  · exact List.perm_insertionSort _ _

/-- C4, witnessed on the empty window and a concrete exchange. -/
theorem c4_offset_window_witness :
    (([] : List ℚ).length ≤ 50)
    ∧ ((handleServerTime ⟨[], 0⟩ 0 0 0 0).1.serverTimeDiffSamples.length ≤ 50
    ∧ ((handleServerTime ⟨[], 0⟩ 0 0 0 0).1.serverTimeDiffSamples.length < 20 →
        (handleServerTime ⟨[], 0⟩ 0 0 0 0).2 = some 10 ∧ (10 : ℚ) ≤ 20)
    ∧ (handleServerTime ⟨[], 0⟩ 0 0 0 0).1.serverTimeDiff =
        windowMedian (handleServerTime ⟨[], 0⟩ 0 0 0 0).1.serverTimeDiffSamples
    ∧ List.Sorted (· ≤ ·)
        (sortedWindow (handleServerTime ⟨[], 0⟩ 0 0 0 0).1.serverTimeDiffSamples)
    ∧ (sortedWindow
        (handleServerTime ⟨[], 0⟩ 0 0 0 0).1.serverTimeDiffSamples).Perm
        (handleServerTime ⟨[], 0⟩ 0 0 0 0).1.serverTimeDiffSamples) :=
  ⟨by decide, c4_offset_window ⟨[], 0⟩ 0 0 0 0 (by decide)⟩

/-- C5, counterexample to the claimed value: with T0 = 1 000 000,
T1 = 1 050 000, T2 = 1 050 500, T3 = 1 100 000 the code computes
`((T1 − T0) + (T2 − T3)) / 2 / 1e6 = (50 000 − 49 500)/2/1e6 = 0.00025 s`,
not −0.52375 s as the claim states; the appended sample is 1/4000. -/
theorem c5_offset_sample_counterexample :
    (handleServerTime ⟨[], 0⟩ 1000000 1050000 1050500 1100000).1.serverTimeDiffSamples
      = [1 / 4000]
    ∧ ((1 : ℚ) / 4000 = 0.00025)
    ∧ ¬ ((1 : ℚ) / 4000 = -(52375 / 100000)) := by
  refine ⟨?_, by norm_num, by norm_num⟩
  simp only [handleServerTime, MAX_TIME_DIFF_SAMPLES, MIN_TIME_DIFF_SAMPLES]
  norm_num

/-- C5 (amended): processing that `source/time` response appends the
sample 0.00025 s (= ((1 050 000 − 1 000 000) + (1 050 500 − 1 100 000)) /
2 / 1 000 000) to the window. -/
theorem c5_offset_sample_amended (st : ReceiverTimeState)
    (hlen : st.serverTimeDiffSamples.length < 50) :
    (handleServerTime st 1000000 1050000 1050500 1100000).1.serverTimeDiffSamples
      = st.serverTimeDiffSamples ++ [1 / 4000] := by
  have h50 : ¬ (MAX_TIME_DIFF_SAMPLES < st.serverTimeDiffSamples.length + 1) := by
    simp only [MAX_TIME_DIFF_SAMPLES]
    omega
  simp only [handleServerTime, List.length_append, List.length_cons,
    List.length_nil, h50, if_false]
  norm_num

/-- C5 (amended), witnessed on the empty window. -/
theorem c5_offset_sample_witness :
    (([] : List ℚ).length < 50)
    ∧ (handleServerTime ⟨[], 0⟩ 1000000 1050000 1050500 1100000).1.serverTimeDiffSamples
      = (⟨[], 0⟩ : ReceiverTimeState).serverTimeDiffSamples ++ [1 / 4000] :=
  ⟨by decide, c5_offset_sample_amended ⟨[], 0⟩ (by decide)⟩

/-! ### Byte-level lemmas -/

theorem natToBytesBE_length : ∀ (w v : ℕ), (natToBytesBE w v).length = w
  | 0, _ => rfl
  | w + 1, v => by
    simp [natToBytesBE, natToBytesBE_length w (v / 256)]

theorem fromBytesBE_append_singleton (bs : List ℕ) (b : ℕ) :
    fromBytesBE (bs ++ [b]) = fromBytesBE bs * 256 + b := by
  simp [fromBytesBE, List.foldl_append]

theorem fromBytesBE_natToBytesBE : ∀ (w v : ℕ),
    fromBytesBE (natToBytesBE w v) = v % 256 ^ w
  | 0, v => by simp [natToBytesBE, fromBytesBE, Nat.mod_one]
  | w + 1, v => by
    rw [natToBytesBE, fromBytesBE_append_singleton,
      fromBytesBE_natToBytesBE w (v / 256), pow_succ', Nat.mod_mul]
    ring

theorem uint64OfInt_lt (t : ℤ) : uint64OfInt t < 2 ^ 64 := by
  simp only [uint64OfInt]
  omega

theorem int64OfUint_uint64OfInt (t : ℤ)
    (h1 : -(2 ^ 63) ≤ t) (h2 : t < 2 ^ 63) :
    int64OfUint (uint64OfInt t) = t := by
  simp only [int64OfUint, uint64OfInt]
  split_ifs with h <;> omega

theorem int16LE_length (v : ℤ) : (int16LE v).length = 2 := rfl

theorem int16LE_bytes_lt (v : ℤ) : ∀ b ∈ int16LE v, b < 256 := by
  intro b hb
  simp only [int16LE, List.mem_cons, List.not_mem_nil, or_false] at hb
  rcases hb with rfl | rfl <;> omega

theorem int16OfBytesLE_int16LE (v : ℤ)
    (h1 : -(2 ^ 15) ≤ v) (h2 : v < 2 ^ 15) :
    int16OfBytesLE ((int16LE v).getD 0 0) ((int16LE v).getD 1 0) = v := by
  simp only [int16LE, int16OfBytesLE, List.getD_cons_zero, List.getD_cons_succ]
  split_ifs with h <;> omega

/-! ### Frame-construction lemmas -/

/-- An in-range `DataView` write right after a prefix. -/
theorem writeBytes_append (pre post bs : List ℕ) :
    writeBytes (pre ++ post) pre.length bs = pre ++ bs ++ post.drop bs.length := by
  simp only [writeBytes, List.take_left, List.drop_append]

/-- The three header writes on a zeroed buffer lay the bytes out as
`[type] ++ timestamp (8, BE) ++ sample count (4, BE)`. -/
theorem writeAudioPacketHeader_replicate (m : ℕ) (ts : ℤ) (n : ℕ) :
    writeAudioPacketHeader (List.replicate (13 + m) 0) ts n =
      [PlayAudioChunkType] ++ natToBytesBE 8 (uint64OfInt ts)
        ++ natToBytesBE 4 (n % 2 ^ 32) ++ List.replicate m 0 := by
  have h1 : writeBytes (List.replicate (13 + m) 0) 0 [PlayAudioChunkType] =
      [PlayAudioChunkType] ++ List.replicate (12 + m) 0 := by
    have := writeBytes_append [] (List.replicate (13 + m) 0) [PlayAudioChunkType]
    simp only [List.length_nil, List.nil_append] at this
    rw [this, List.drop_replicate]
    norm_num
  have h2 : writeBytes ([PlayAudioChunkType] ++ List.replicate (12 + m) 0) 1
      (natToBytesBE 8 (uint64OfInt ts)) =
      [PlayAudioChunkType] ++ natToBytesBE 8 (uint64OfInt ts)
        ++ List.replicate (4 + m) 0 := by
    have := writeBytes_append [PlayAudioChunkType] (List.replicate (12 + m) 0)
      (natToBytesBE 8 (uint64OfInt ts))
    simp only [List.length_singleton] at this
    rw [this, List.drop_replicate, natToBytesBE_length]
    have : 12 + m - 8 = 4 + m := by omega
    rw [this, List.append_assoc]
  have h3 : writeBytes ([PlayAudioChunkType] ++ natToBytesBE 8 (uint64OfInt ts)
        ++ List.replicate (4 + m) 0) 9 (natToBytesBE 4 (n % 2 ^ 32)) =
      [PlayAudioChunkType] ++ natToBytesBE 8 (uint64OfInt ts)
        ++ natToBytesBE 4 (n % 2 ^ 32) ++ List.replicate m 0 := by
    have hlen : ([PlayAudioChunkType] ++ natToBytesBE 8 (uint64OfInt ts)).length = 9 := by
      simp [natToBytesBE_length]
    have := writeBytes_append
      ([PlayAudioChunkType] ++ natToBytesBE 8 (uint64OfInt ts))
      (List.replicate (4 + m) 0) (natToBytesBE 4 (n % 2 ^ 32))
    rw [hlen] at this
    rw [this, List.drop_replicate, natToBytesBE_length]
    have h4 : 4 + m - 4 = m := by omega
    rw [h4]
  simp only [writeAudioPacketHeader]
  rw [h1, h2, h3]

/-- Collapsing the sample-writing double loop into a single loop over the
flattened index `j = i * channels + channel`. -/
theorem foldl_foldl_range {β : Type} (g : ℕ → β → β) (c : ℕ) :
    ∀ (n : ℕ) (init : β),
      (List.range n).foldl (fun b i =>
        (List.range c).foldl (fun b ch => g (i * c + ch) b) b) init
      = (List.range (n * c)).foldl (fun b j => g j b) init := by
  intro n
  induction n with
  | zero => intro init; simp
  | succ n ih =>
    intro init
    rw [List.range_succ, List.foldl_append, ih, Nat.succ_mul, List.range_add,
      List.foldl_append, List.foldl_map]
    simp only [List.foldl_cons, List.foldl_nil]

/-- A run of consecutive two-byte writes starting right after the prefix
turns the zero-filled tail into the concatenation of the chunks. -/
theorem foldl_writeBytes_range' (f : ℕ → List ℕ) (hf : ∀ j, (f j).length = 2) :
    ∀ (k sidx : ℕ) (pre : List ℕ) (m : ℕ),
      pre.length = 13 + sidx * 2 → 2 * k ≤ m →
      (List.range' sidx k).foldl
        (fun b j => writeBytes b (13 + j * 2) (f j)) (pre ++ List.replicate m 0)
      = pre ++ (List.range' sidx k).flatMap f ++ List.replicate (m - 2 * k) 0 := by
  intro k
  induction k with
  | zero =>
    intro sidx pre m _ _
    simp
  | succ k ih =>
    intro sidx pre m hpre hm
    rw [List.range'_succ, List.foldl_cons]
    have hw : writeBytes (pre ++ List.replicate m 0) (13 + sidx * 2) (f sidx) =
        (pre ++ f sidx) ++ List.replicate (m - 2) 0 := by
      rw [← hpre, writeBytes_append, List.drop_replicate, hf, List.append_assoc]
    rw [hw]
    have hpre' : (pre ++ f sidx).length = 13 + (sidx + 1) * 2 := by
      simp [hf, hpre]
      omega
    have hm' : 2 * k ≤ m - 2 := by omega
    rw [ih (sidx + 1) (pre ++ f sidx) (m - 2) hpre' hm']
    have hcnt : m - 2 - 2 * k = m - 2 * (k + 1) := by omega
    rw [hcnt, List.flatMap_cons]
    simp [List.append_assoc]

/-- `getD` through a `map` over `range`. -/
theorem getD_map_range {β : Type} (n : ℕ) (f : ℕ → β) (i : ℕ) (hi : i < n)
    (d : β) : ((List.range n).map f).getD i d = f i := by
  rw [List.getD_eq_getElem?_getD, List.getElem?_map, List.getElem?_range hi]
  rfl

/-- `sendPCMAudioChunk` on interleaved int16 input (for the normative
`bit_depth = 16`): the frame is the 13-byte header followed by the
little-endian int16 samples in interleaved order — at flattened index
`j = i * channels + channel` the encoded sample of plane `j % channels`
at position `j / channels`. -/
theorem sendPCM_int16_eq (s : SessionInfo) (data : List ℤ) (ts : ℤ)
    (hch : 0 < s.channels) (hbd : s.bit_depth = 16) :
    sendPCMAudioChunk s (PCMData.int16 data) ts =
      Except.ok ([PlayAudioChunkType] ++ natToBytesBE 8 (uint64OfInt ts)
        ++ natToBytesBE 4 ((data.length / s.channels) % 2 ^ 32)
        ++ ((List.range (data.length / s.channels * s.channels)).flatMap fun j =>
            int16LE (encodeSample
              (((deinterleave s.channels data).getD (j % s.channels) []).getD
                (j / s.channels) 0)))) := by
  have hbps : s.bit_depth / 8 = 2 := by rw [hbd]
  have hlen : (deinterleave s.channels data).length = s.channels := by
    simp [deinterleave]
  have hplane0 : ((deinterleave s.channels data).getD 0 []).length
      = data.length / s.channels := by
    rw [show deinterleave s.channels data = (List.range s.channels).map (fun ch =>
        (List.range (data.length / s.channels)).map fun i =>
          ((data.getD (i * s.channels + ch) 0 : ℤ) : ℚ) / 32768) from rfl,
      getD_map_range s.channels _ 0 hch]
    simp
  simp only [sendPCMAudioChunk]
  rw [if_neg (by simp [hlen])]
  rw [hplane0, hbps]
  simp only [HEADER_SIZE]
  rw [writeAudioPacketHeader_replicate
    (data.length / s.channels * s.channels * 2) ts (data.length / s.channels)]
  congr 1
  simp only [writeAudioData, HEADER_SIZE]
  have houter : ∀ (init : List ℕ),
      (List.range (data.length / s.channels)).foldl (fun b i =>
        (List.range s.channels).foldl (fun b channel =>
          writeBytes b (13 + (i * s.channels + channel) * 2)
            (int16LE (encodeSample
              (((deinterleave s.channels data).getD channel []).getD i 0)))) b) init
      = (List.range (data.length / s.channels)).foldl (fun b i =>
        (List.range s.channels).foldl (fun b ch =>
          writeBytes b (13 + (i * s.channels + ch) * 2)
            (int16LE (encodeSample
              (((deinterleave s.channels data).getD ((i * s.channels + ch) % s.channels)
                []).getD ((i * s.channels + ch) / s.channels) 0))) ) b) init := by
    intro init
    apply List.foldl_ext
    intro b i _
    apply List.foldl_ext
    intro b' ch hchmem
    have hchlt : ch < s.channels := List.mem_range.mp hchmem
    have hmod : (i * s.channels + ch) % s.channels = ch := by
      rw [Nat.add_comm, Nat.add_mul_mod_self_right, Nat.mod_eq_of_lt hchlt]
    have hdiv : (i * s.channels + ch) / s.channels = i := by
      rw [Nat.add_comm, Nat.add_mul_div_right _ _ hch, Nat.div_eq_of_lt hchlt,
        Nat.zero_add]
    rw [hmod, hdiv]
  rw [houter]
  rw [foldl_foldl_range (fun j b =>
    writeBytes b (13 + j * 2)
      (int16LE (encodeSample
        (((deinterleave s.channels data).getD (j % s.channels) []).getD
          (j / s.channels) 0)))) s.channels (data.length / s.channels)]
  rw [List.range_eq_range']
  rw [foldl_writeBytes_range'
    (fun j => int16LE (encodeSample
      (((deinterleave s.channels data).getD (j % s.channels) []).getD
        (j / s.channels) 0)))
    (fun j => int16LE_length _)
    (data.length / s.channels * s.channels) 0
    ([PlayAudioChunkType] ++ natToBytesBE 8 (uint64OfInt ts)
      ++ natToBytesBE 4 ((data.length / s.channels) % 2 ^ 32))
    (data.length / s.channels * s.channels * 2)
    (by simp [natToBytesBE_length])
    (by omega)]
  rw [← List.range_eq_range']
  have hz : data.length / s.channels * s.channels * 2
      - 2 * (data.length / s.channels * s.channels) = 0 := by omega
  rw [hz]
  simp

/-! ### Frame-decoding lemmas -/

theorem flatMap_length_two (f : ℕ → List ℕ) (hf : ∀ j, (f j).length = 2) :
    ∀ n, ((List.range n).flatMap f).length = 2 * n := by
  intro n
  induction n with
  | zero => rfl
  | succ n ih =>
    rw [List.range_succ, List.flatMap_append, List.length_append, ih]
    simp [hf n]
    omega

theorem flatMap_getD_two (f : ℕ → List ℕ) (hf : ∀ j, (f j).length = 2) :
    ∀ (n j : ℕ), j < n → ∀ (r d : ℕ), r < 2 →
      ((List.range n).flatMap f).getD (2 * j + r) d = (f j).getD r d := by
  intro n
  induction n with
  | zero => intro j hj; omega
  | succ n ih =>
    intro j hj r d hr
    rw [List.range_succ, List.flatMap_append]
    by_cases hjn : j < n
    · rw [List.getD_append]
      · exact ih j hjn r d hr
      · rw [flatMap_length_two f hf]
        omega
    · have hj' : j = n := by omega
      subst hj'
      rw [List.getD_append_right _ _ _ _ (by rw [flatMap_length_two f hf]; omega)]
      rw [flatMap_length_two f hf]
      have hidx : 2 * j + r - 2 * j = r := by omega
      rw [hidx]
      simp

/-- Decoding the normalized frame shape: header fields come back exactly
(timestamp within the int64 range, sample count within uint32), the size
check passes, and plane `channel`, position `i` reads back the two bytes
written for flattened index `i * channels + channel`. -/
theorem handleAudioChunk_frame (s : SessionInfo) (q : ℕ) (ts : ℤ)
    (f : ℕ → List ℕ) (hf : ∀ j, (f j).length = 2)
    (hq : q < 2 ^ 32) (hts1 : -(2 ^ 63) ≤ ts) (hts2 : ts < 2 ^ 63) :
    handleAudioChunk s ([PlayAudioChunkType] ++ natToBytesBE 8 (uint64OfInt ts)
        ++ natToBytesBE 4 (q % 2 ^ 32) ++ (List.range (q * s.channels)).flatMap f)
      = some (ts, q,
          (List.range s.channels).map fun channel =>
            (List.range q).map fun i =>
              decodeSample (int16OfBytesLE
                ((f (i * s.channels + channel)).getD 0 0)
                ((f (i * s.channels + channel)).getD 1 0))) := by
  have hlenf : ([PlayAudioChunkType] ++ natToBytesBE 8 (uint64OfInt ts)
      ++ natToBytesBE 4 (q % 2 ^ 32)
      ++ (List.range (q * s.channels)).flatMap f).length
      = 13 + 2 * (q * s.channels) := by
    simp [List.length_append, natToBytesBE_length, flatMap_length_two f hf]
    omega
  have hhdr : ([PlayAudioChunkType] ++ natToBytesBE 8 (uint64OfInt ts)
      ++ natToBytesBE 4 (q % 2 ^ 32)).length = 13 := by
    simp [natToBytesBE_length]
  have hi64 : getBigInt64BE ([PlayAudioChunkType] ++ natToBytesBE 8 (uint64OfInt ts)
      ++ natToBytesBE 4 (q % 2 ^ 32)
      ++ (List.range (q * s.channels)).flatMap f) 1 = ts := by
    rw [getBigInt64BE, getBytes]
    rw [List.append_assoc, List.append_assoc]
    rw [List.drop_left' (show ([PlayAudioChunkType] : List ℕ).length = 1 from rfl)]
    rw [List.take_left' (natToBytesBE_length 8 (uint64OfInt ts))]
    rw [fromBytesBE_natToBytesBE]
    have h64 : (256 : ℕ) ^ 8 = 2 ^ 64 := by norm_num
    rw [Nat.mod_eq_of_lt (by rw [h64]; exact uint64OfInt_lt ts)]
    exact int64OfUint_uint64OfInt ts hts1 hts2
  have hu32 : getUint32BE ([PlayAudioChunkType] ++ natToBytesBE 8 (uint64OfInt ts)
      ++ natToBytesBE 4 (q % 2 ^ 32)
      ++ (List.range (q * s.channels)).flatMap f) 9 = q := by
    rw [getUint32BE, getBytes]
    rw [List.append_assoc ([PlayAudioChunkType] ++ natToBytesBE 8 (uint64OfInt ts))]
    rw [List.drop_left'
      (show ([PlayAudioChunkType] ++ natToBytesBE 8 (uint64OfInt ts)).length = 9
        from by simp [natToBytesBE_length])]
    rw [List.take_left' (natToBytesBE_length 4 (q % 2 ^ 32))]
    rw [fromBytesBE_natToBytesBE]
    have h32 : (256 : ℕ) ^ 4 = 2 ^ 32 := by norm_num
    rw [h32]
    omega
  have hbody : ∀ (channel i : ℕ), channel < s.channels → i < q →
      getInt16LEAt ([PlayAudioChunkType] ++ natToBytesBE 8 (uint64OfInt ts)
          ++ natToBytesBE 4 (q % 2 ^ 32) ++ (List.range (q * s.channels)).flatMap f)
        (13 + i * s.channels * 2 + channel * 2)
      = int16OfBytesLE ((f (i * s.channels + channel)).getD 0 0)
          ((f (i * s.channels + channel)).getD 1 0) := by
    intro channel i hchlt hilt
    have hj : i * s.channels + channel < q * s.channels := by
      have h1 : i + 1 ≤ q := hilt
      calc i * s.channels + channel < i * s.channels + s.channels := by omega
        _ = (i + 1) * s.channels := by ring
        _ ≤ q * s.channels := Nat.mul_le_mul_right _ hilt
    have hoff0 : 13 + i * s.channels * 2 + channel * 2
        = 13 + (2 * (i * s.channels + channel) + 0) := by ring
    have hoff1 : 13 + i * s.channels * 2 + channel * 2 + 1
        = 13 + (2 * (i * s.channels + channel) + 1) := by ring
    have hget : ∀ r : ℕ, r < 2 →
        ([PlayAudioChunkType] ++ natToBytesBE 8 (uint64OfInt ts)
          ++ natToBytesBE 4 (q % 2 ^ 32)
          ++ (List.range (q * s.channels)).flatMap f).getD
            (13 + (2 * (i * s.channels + channel) + r)) 0
        = (f (i * s.channels + channel)).getD r 0 := by
      intro r hr
      rw [List.getD_append_right _ _ _ _ (by rw [hhdr]; omega), hhdr]
      have hidx : 13 + (2 * (i * s.channels + channel) + r) - 13
          = 2 * (i * s.channels + channel) + r := by omega
      rw [hidx]
      exact flatMap_getD_two f hf (q * s.channels) _ hj r 0 hr
    rw [getInt16LEAt, hoff0]
    rw [show 13 + (2 * (i * s.channels + channel) + 0) + 1
      = 13 + (2 * (i * s.channels + channel) + 1) from by omega]
    rw [hget 0 (by omega), hget 1 (by omega)]
  have hmaps : ((List.range s.channels).map fun channel =>
      (List.range q).map fun i =>
        decodeSample (getInt16LEAt
          ([PlayAudioChunkType] ++ natToBytesBE 8 (uint64OfInt ts)
            ++ natToBytesBE 4 (q % 2 ^ 32)
            ++ (List.range (q * s.channels)).flatMap f)
          (13 + i * s.channels * 2 + channel * 2)))
      = (List.range s.channels).map fun channel =>
        (List.range q).map fun i =>
          decodeSample (int16OfBytesLE
            ((f (i * s.channels + channel)).getD 0 0)
            ((f (i * s.channels + channel)).getD 1 0)) := by
    apply List.map_congr_left
    intro channel hchmem
    apply List.map_congr_left
    intro i himem
    rw [hbody channel i (List.mem_range.mp hchmem) (List.mem_range.mp himem)]
  simp only [handleAudioChunk, HEADER_SIZE]
  rw [if_neg (by rw [hlenf]; omega)]
  rw [hu32, hi64]
  rw [if_neg (by rw [hlenf]; omega)]
  rw [hmaps]

/-! ### Sample-quantization lemmas -/

theorem encodeSample_range (x : ℚ) :
    -32767 ≤ encodeSample x ∧ encodeSample x ≤ 32767 := by
  have hcl : -1 ≤ jsClamp x := le_max_left _ _
  have hcu : jsClamp x ≤ 1 := max_le (by norm_num) (min_le_left _ _)
  constructor
  · rw [encodeSample, jsRound]
    apply Int.le_floor.mpr
    push_cast
    nlinarith [hcl]
  · rw [encodeSample, jsRound]
    have hlt : ⌊jsClamp x * 32767 + 1 / 2⌋ < 32768 := by
      apply Int.floor_lt.mpr
      push_cast
      nlinarith [hcu]
    omega

/-- For a sample that came from an int16 value `k` (so the float is
`k / 32768` and clamping is the identity), encode-then-decode moves the
value by at most one decoder LSB, and `0` round-trips exactly. -/
theorem decode_encode_int16 (k : ℤ) (h1 : -32768 ≤ k) (h2 : k ≤ 32767) :
    |decodeSample (encodeSample ((k : ℚ) / 32768)) - (k : ℚ) / 32768| ≤ 1 / 32768
    ∧ (k = 0 → decodeSample (encodeSample ((k : ℚ) / 32768)) = 0) := by
  have h1' : (-32768 : ℚ) ≤ (k : ℚ) := by exact_mod_cast h1
  have h2' : (k : ℚ) ≤ 32767 := by exact_mod_cast h2
  have hxl : (-1 : ℚ) ≤ (k : ℚ) / 32768 := by
    rw [le_div_iff₀ (by norm_num : (0 : ℚ) < 32768)]
    linarith
  have hxu : (k : ℚ) / 32768 ≤ 1 := by
    rw [div_le_one (by norm_num : (0 : ℚ) < 32768)]
    linarith
  have hclamp : jsClamp ((k : ℚ) / 32768) = (k : ℚ) / 32768 := by
    rw [jsClamp, min_eq_right hxu, max_eq_right hxl]
  have harg : (k : ℚ) / 32768 * 32767 + 1 / 2
      = (k : ℚ) + (1 / 2 - (k : ℚ) / 32768) := by ring
  have henc : encodeSample ((k : ℚ) / 32768)
      = k + ⌊1 / 2 - (k : ℚ) / 32768⌋ := by
    rw [encodeSample, hclamp, jsRound, harg, Int.floor_int_add]
  have he1 : -1 ≤ ⌊1 / 2 - (k : ℚ) / 32768⌋ := by
    apply Int.le_floor.mpr
    push_cast
    linarith
  have he2 : ⌊1 / 2 - (k : ℚ) / 32768⌋ ≤ 1 := by
    have : ⌊1 / 2 - (k : ℚ) / 32768⌋ < 2 := by
      apply Int.floor_lt.mpr
      push_cast
      linarith
    omega
  constructor
  · have hdiff : decodeSample (encodeSample ((k : ℚ) / 32768)) - (k : ℚ) / 32768
        = (⌊1 / 2 - (k : ℚ) / 32768⌋ : ℚ) / 32768 := by
      rw [henc, decodeSample]
      push_cast
      ring
    rw [hdiff, abs_div, abs_of_pos (by norm_num : (0 : ℚ) < 32768)]
    gcongr
    exact abs_le.mpr ⟨by exact_mod_cast he1, by exact_mod_cast he2⟩
  · intro hk
    subst hk
    rw [henc]
    have hhalf : (1 / 2 - ((0 : ℤ) : ℚ) / 32768) = 1 / 2 := by norm_num
    rw [hhalf, show ⌊(1 / 2 : ℚ)⌋ = 0 from
      Int.floor_eq_zero_iff.mpr ⟨by norm_num, by norm_num⟩]
    rw [decodeSample]
    norm_num

theorem getD_mem_of_lt (l : List ℤ) (idx : ℕ) (h : idx < l.length) (d : ℤ) :
    l.getD idx d ∈ l := by
  rw [List.getD_eq_getElem?_getD, List.getElem?_eq_getElem h]
  exact List.getElem_mem h

/-- C3. For a `PlayAudioChunk` frame built by `sendPCMAudioChunk` from
interleaved int16 samples (normative `bit_depth = 16`, timestamp in the
int64-safe range, per-channel sample count within uint32) and decoded by
`_handleAudioChunk`: the frame is accepted, the decoded timestamp and
sample count are bit-identical to the encoded header fields, and each
decoded sample differs from the original sample (`pcmData[i*channels+ch] /
32768`) by at most one LSB (1/32768); an int16 sample of 0 round-trips to
exactly 0. -/
theorem c3_pcm_roundtrip (s : SessionInfo) (data : List ℤ) (ts : ℤ)
    (hch : 0 < s.channels) (hbd : s.bit_depth = 16)
    (hdata : ∀ k ∈ data, -32768 ≤ k ∧ k ≤ 32767)
    (hq : data.length / s.channels < 2 ^ 32)
    (hts1 : -(2 ^ 63) ≤ ts) (hts2 : ts < 2 ^ 63) :
    (handleAudioChunk s
        ((sendPCMAudioChunk s (PCMData.int16 data) ts).toOption.getD [])).isSome = true
    ∧ decodedTimestamp (handleAudioChunk s
        ((sendPCMAudioChunk s (PCMData.int16 data) ts).toOption.getD [])) = ts
    ∧ decodedSampleCount (handleAudioChunk s
        ((sendPCMAudioChunk s (PCMData.int16 data) ts).toOption.getD []))
        = data.length / s.channels
    ∧ (decodedPlanes (handleAudioChunk s
        ((sendPCMAudioChunk s (PCMData.int16 data) ts).toOption.getD []))).length
        = s.channels
    ∧ (∀ p ∈ decodedPlanes (handleAudioChunk s
        ((sendPCMAudioChunk s (PCMData.int16 data) ts).toOption.getD [])),
        p.length = data.length / s.channels)
    ∧ (∀ channel i, channel < s.channels → i < data.length / s.channels →
        |((decodedPlanes (handleAudioChunk s
            ((sendPCMAudioChunk s (PCMData.int16 data) ts).toOption.getD []))).getD
              channel []).getD i 0
          - (data.getD (i * s.channels + channel) 0 : ℚ) / 32768| ≤ 1 / 32768
        ∧ (data.getD (i * s.channels + channel) 0 = 0 →
            ((decodedPlanes (handleAudioChunk s
              ((sendPCMAudioChunk s (PCMData.int16 data) ts).toOption.getD []))).getD
                channel []).getD i 0 = 0)) := by
  have hF : (sendPCMAudioChunk s (PCMData.int16 data) ts).toOption.getD []
      = [PlayAudioChunkType] ++ natToBytesBE 8 (uint64OfInt ts)
        ++ natToBytesBE 4 ((data.length / s.channels) % 2 ^ 32)
        ++ ((List.range (data.length / s.channels * s.channels)).flatMap fun j =>
            int16LE (encodeSample
              (((deinterleave s.channels data).getD (j % s.channels) []).getD
                (j / s.channels) 0))) := by
    rw [sendPCM_int16_eq s data ts hch hbd]
    rfl
  have hdec := handleAudioChunk_frame s (data.length / s.channels) ts
    (fun j => int16LE (encodeSample
      (((deinterleave s.channels data).getD (j % s.channels) []).getD
        (j / s.channels) 0)))
    (fun j => int16LE_length _) hq hts1 hts2
  rw [hF, hdec]
  refine ⟨rfl, rfl, rfl, by simp [decodedPlanes], ?_, ?_⟩
  · intro p hp
    simp only [decodedPlanes, Option.getD_some] at hp
    obtain ⟨ch, _, rfl⟩ := List.mem_map.mp hp
    simp
  · intro channel i hclt hilt
    simp only [decodedPlanes, Option.getD_some]
    rw [getD_map_range s.channels _ channel hclt]
    rw [getD_map_range (data.length / s.channels) _ i hilt]
    have hmod : (i * s.channels + channel) % s.channels = channel := by
      rw [Nat.add_comm, Nat.add_mul_mod_self_right, Nat.mod_eq_of_lt hclt]
    have hdiv : (i * s.channels + channel) / s.channels = i := by
      rw [Nat.add_comm, Nat.add_mul_div_right _ _ hch, Nat.div_eq_of_lt hclt,
        Nat.zero_add]
    have hplane : ((deinterleave s.channels data).getD channel []).getD i 0
        = (data.getD (i * s.channels + channel) 0 : ℚ) / 32768 := by
      rw [show deinterleave s.channels data
          = (List.range s.channels).map (fun ch =>
            (List.range (data.length / s.channels)).map fun i =>
              ((data.getD (i * s.channels + ch) 0 : ℤ) : ℚ) / 32768) from rfl]
      rw [getD_map_range s.channels _ channel hclt]
      rw [getD_map_range (data.length / s.channels) _ i hilt]
    have hrange := encodeSample_range
      (((deinterleave s.channels data).getD
        ((i * s.channels + channel) % s.channels) []).getD
        ((i * s.channels + channel) / s.channels) 0)
    rw [int16OfBytesLE_int16LE _ (by omega) (by omega)]
    rw [hmod, hdiv, hplane]
    have hidx : i * s.channels + channel < data.length := by
      have hlt : i * s.channels + channel
          < data.length / s.channels * s.channels := by
        calc i * s.channels + channel < i * s.channels + s.channels := by omega
          _ = (i + 1) * s.channels := by ring
          _ ≤ data.length / s.channels * s.channels :=
            Nat.mul_le_mul_right _ hilt
      calc i * s.channels + channel
          < data.length / s.channels * s.channels := hlt
        _ ≤ data.length := Nat.div_mul_le_self _ _
    have hk := hdata (data.getD (i * s.channels + channel) 0)
      (getD_mem_of_lt data _ hidx 0)
    exact decode_encode_int16 (data.getD (i * s.channels + channel) 0) hk.1 hk.2

/-- C3, witnessed on a concrete stereo chunk of zeros. -/
theorem c3_pcm_roundtrip_witness :
    (handleAudioChunk sEx3
        ((sendPCMAudioChunk sEx3 (PCMData.int16 [0, 0]) 0).toOption.getD [])).isSome = true
    ∧ decodedTimestamp (handleAudioChunk sEx3
        ((sendPCMAudioChunk sEx3 (PCMData.int16 [0, 0]) 0).toOption.getD [])) = 0
    ∧ decodedSampleCount (handleAudioChunk sEx3
        ((sendPCMAudioChunk sEx3 (PCMData.int16 [0, 0]) 0).toOption.getD []))
        = [(0 : ℤ), 0].length / sEx3.channels
    ∧ (decodedPlanes (handleAudioChunk sEx3
        ((sendPCMAudioChunk sEx3 (PCMData.int16 [0, 0]) 0).toOption.getD []))).length
        = sEx3.channels
    ∧ (∀ p ∈ decodedPlanes (handleAudioChunk sEx3
        ((sendPCMAudioChunk sEx3 (PCMData.int16 [0, 0]) 0).toOption.getD [])),
        p.length = [(0 : ℤ), 0].length / sEx3.channels)
    ∧ (∀ channel i, channel < sEx3.channels → i < [(0 : ℤ), 0].length / sEx3.channels →
        |((decodedPlanes (handleAudioChunk sEx3
            ((sendPCMAudioChunk sEx3 (PCMData.int16 [0, 0]) 0).toOption.getD []))).getD
              channel []).getD i 0
          - ([(0 : ℤ), 0].getD (i * sEx3.channels + channel) 0 : ℚ) / 32768| ≤ 1 / 32768
        ∧ ([(0 : ℤ), 0].getD (i * sEx3.channels + channel) 0 = 0 →
            ((decodedPlanes (handleAudioChunk sEx3
              ((sendPCMAudioChunk sEx3 (PCMData.int16 [0, 0]) 0).toOption.getD []))).getD
                channel []).getD i 0 = 0)) :=
  c3_pcm_roundtrip sEx3 [0, 0] 0 (by decide) rfl (by decide) (by decide)
    (by decide) (by decide)

theorem getD_take {α : Type} (l : List α) (n i : ℕ) (h : i < n) (d : α) :
    (l.take n).getD i d = l.getD i d := by
  rw [List.getD_eq_getElem?_getD, List.getD_eq_getElem?_getD, List.getElem?_take]
  simp [h]

/-- C9. `sendPCMAudioChunk` accepts interleaved int16 samples — which it
de-interleaves into `channels` float planes by dividing each sample by
32768 — or a float plane (treated as mono); the resulting plane count is
validated against the session's channel count, and on mismatch the call
returns the `Channel mismatch` error to the caller with nothing handed to
the binary fan-out, while the int16 path always passes validation. -/
theorem c9_channel_validation (s : SessionInfo) (data16 : List ℤ)
    (dataF : List ℚ) (ts : ℤ) :
    (deinterleave s.channels data16).length = s.channels
    ∧ (∀ channel i, channel < s.channels → i < data16.length / s.channels →
        ((deinterleave s.channels data16).getD channel []).getD i 0
          = (data16.getD (i * s.channels + channel) 0 : ℚ) / 32768)
    ∧ (sendPCMAudioChunk s (PCMData.int16 data16) ts).isOk = true
    ∧ (s.channels ≠ 1 →
        sendPCMAudioChunk s (PCMData.float32 dataF) ts
          = Except.error ("Channel mismatch: expected " ++ toString s.channels
              ++ ", got " ++ toString (1 : ℕ))) := by
  have hlen : (deinterleave s.channels data16).length = s.channels := by
    simp [deinterleave]
  refine ⟨hlen, ?_, ?_, ?_⟩
  · intro channel i hclt hilt
    rw [show deinterleave s.channels data16
        = (List.range s.channels).map (fun ch =>
          (List.range (data16.length / s.channels)).map fun i =>
            ((data16.getD (i * s.channels + ch) 0 : ℤ) : ℚ) / 32768) from rfl]
    rw [getD_map_range s.channels _ channel hclt]
    rw [getD_map_range (data16.length / s.channels) _ i hilt]
  · simp only [sendPCMAudioChunk]
    rw [if_neg (by simp [hlen])]
    rfl
  · intro hne
    simp only [sendPCMAudioChunk]
    rw [if_pos (by simpa using fun h => hne h.symm)]
    rfl

/-- C9, witnessed on a stereo session: the int16 path de-interleaves and
passes validation; a lone float plane raises `Channel mismatch`. -/
theorem c9_channel_validation_witness :
    (deinterleave sEx3.channels [(5 : ℤ), -3]).length = sEx3.channels
    ∧ (∀ channel i, channel < sEx3.channels →
        i < [(5 : ℤ), -3].length / sEx3.channels →
        ((deinterleave sEx3.channels [(5 : ℤ), -3]).getD channel []).getD i 0
          = ([(5 : ℤ), -3].getD (i * sEx3.channels + channel) 0 : ℚ) / 32768)
    ∧ (sendPCMAudioChunk sEx3 (PCMData.int16 [(5 : ℤ), -3]) 7).isOk = true
    ∧ (sEx3.channels ≠ 1 →
        sendPCMAudioChunk sEx3 (PCMData.float32 [1 / 2]) 7
          = Except.error ("Channel mismatch: expected " ++ toString sEx3.channels
              ++ ", got " ++ toString (1 : ℕ))) :=
  c9_channel_validation sEx3 [(5 : ℤ), -3] [1 / 2] 7

/-- C10. On an interleaved `Int16Array` whose length is not a multiple of
the channel count, `sendPCMAudioChunk` raises no error: the encoded frame
carries exactly `⌊length / channels⌋` samples per channel — the header's
sample-count field reads back as that and the frame is exactly
`13 + ⌊length / channels⌋ · channels · 2` bytes — and the trailing
`length mod channels` samples are silently discarded: truncating the
input to `⌊length / channels⌋ · channels` samples yields the identical
frame. -/
theorem c10_trailing_samples_discarded (s : SessionInfo) (data : List ℤ)
    (ts : ℤ) (hch : 0 < s.channels) (hbd : s.bit_depth = 16)
    (hq : data.length / s.channels < 2 ^ 32) :
    (sendPCMAudioChunk s (PCMData.int16 data) ts).isOk = true
    ∧ getUint32BE ((sendPCMAudioChunk s (PCMData.int16 data) ts).toOption.getD []) 9
        = data.length / s.channels
    ∧ ((sendPCMAudioChunk s (PCMData.int16 data) ts).toOption.getD []).length
        = 13 + data.length / s.channels * s.channels * 2
    ∧ sendPCMAudioChunk s (PCMData.int16
        (data.take (data.length / s.channels * s.channels))) ts
      = sendPCMAudioChunk s (PCMData.int16 data) ts := by
  have hle : data.length / s.channels * s.channels ≤ data.length :=
    Nat.div_mul_le_self _ _
  have hlen' : (data.take (data.length / s.channels * s.channels)).length
      = data.length / s.channels * s.channels := by
    rw [List.length_take]
    omega
  have hq' : (data.take (data.length / s.channels * s.channels)).length
      / s.channels = data.length / s.channels := by
    rw [hlen', Nat.mul_div_cancel _ hch]
  have hde : deinterleave s.channels
      (data.take (data.length / s.channels * s.channels))
      = deinterleave s.channels data := by
    simp only [deinterleave, hq']
    apply List.map_congr_left
    intro ch hchmem
    apply List.map_congr_left
    intro i himem
    have hchlt : ch < s.channels := List.mem_range.mp hchmem
    have hilt : i < data.length / s.channels := List.mem_range.mp himem
    have hidx : i * s.channels + ch < data.length / s.channels * s.channels := by
      calc i * s.channels + ch < i * s.channels + s.channels := by omega
        _ = (i + 1) * s.channels := by ring
        _ ≤ data.length / s.channels * s.channels := Nat.mul_le_mul_right _ hilt
    rw [getD_take data _ _ hidx]
  refine ⟨?_, ?_, ?_, ?_⟩
  · rw [sendPCM_int16_eq s data ts hch hbd]
    rfl
  · rw [sendPCM_int16_eq s data ts hch hbd]
    simp only [Except.toOption, Option.getD_some]
    rw [getUint32BE, getBytes]
    rw [List.append_assoc ([PlayAudioChunkType] ++ natToBytesBE 8 (uint64OfInt ts))]
    rw [List.drop_left'
      (show ([PlayAudioChunkType] ++ natToBytesBE 8 (uint64OfInt ts)).length = 9
        from by simp [natToBytesBE_length])]
    rw [List.take_left'
      (natToBytesBE_length 4 (data.length / s.channels % 2 ^ 32))]
    rw [fromBytesBE_natToBytesBE]
    have h32 : (256 : ℕ) ^ 4 = 2 ^ 32 := by norm_num
    rw [h32, Nat.mod_mod_of_dvd _ dvd_rfl, Nat.mod_eq_of_lt hq]
  · rw [sendPCM_int16_eq s data ts hch hbd]
    simp only [Except.toOption, Option.getD_some]
    simp [natToBytesBE_length,
      flatMap_length_two _ (fun j => int16LE_length _)]
    ring
  · rw [sendPCM_int16_eq s data ts hch hbd,
      sendPCM_int16_eq s (data.take (data.length / s.channels * s.channels)) ts
        hch hbd]
    rw [hde, hq']

/-- C10, witnessed on a stereo session and a 3-sample input: one trailing
sample is discarded. -/
theorem c10_trailing_samples_witness :
    (sendPCMAudioChunk sEx3 (PCMData.int16 [1, 2, 3]) 5).isOk = true
    ∧ getUint32BE ((sendPCMAudioChunk sEx3 (PCMData.int16 [1, 2, 3]) 5).toOption.getD []) 9
        = [(1 : ℤ), 2, 3].length / sEx3.channels
    ∧ ((sendPCMAudioChunk sEx3 (PCMData.int16 [1, 2, 3]) 5).toOption.getD []).length
        = 13 + [(1 : ℤ), 2, 3].length / sEx3.channels * sEx3.channels * 2
    ∧ sendPCMAudioChunk sEx3 (PCMData.int16
        ([(1 : ℤ), 2, 3].take ([(1 : ℤ), 2, 3].length / sEx3.channels * sEx3.channels))) 5
      = sendPCMAudioChunk sEx3 (PCMData.int16 [1, 2, 3]) 5 :=
  c10_trailing_samples_discarded sEx3 [1, 2, 3] 5 (by decide) rfl (by decide)
